import Mathlib

/-
Verification of the wch_dumper firmware core (cartridge Dump Engine and
MTP-style Virtual-Filesystem Protocol Engine).

The definitions below are a shallow embedding of the Rust sources
  src/dumper/dumper.rs  (Dump Engine)
  src/usb/mtp.rs        (Protocol Engine)
into Lean.  Machine integers are modelled as Nat with explicit reductions
modulo 2^8 / 2^16 / 2^32 where the Rust code can overflow; Rust release
semantics are used for overflow (two's-complement wrapping, shift amounts
masked by the bit width).  Rust slice indexing that can panic is modelled
with Option (none = panic).  Bus reads return bytes from external hardware
and are modelled by an uninterpreted oracle function from addresses to
byte values; everything else (control flow, message sequences, arithmetic)
is translated directly from the source.
-/

namespace WchDumper

/-! ## Byte-level helpers shared by both engines -/

/-- Little-endian value of a list of bytes (u16/u32 `from_le_bytes`). -/
def le_bytes (l : List Nat) : Nat := l.foldr (fun b acc => b + 256 * acc) 0

/-- Little-endian encoding of `n` on `k` bytes (`to_le_bytes`). -/
def le_enc : Nat → Nat → List Nat
  | 0, _ => []
  | k + 1, n => (n % 256) :: le_enc k (n / 256)

/-- Rust slice expression `l[a..b]`: panics (none) unless `a ≤ b ≤ l.length`. -/
def slice? (l : List Nat) (a b : Nat) : Option (List Nat) :=
  if a ≤ b ∧ b ≤ l.length then some ((l.drop a).take (b - a)) else none

/-- Read a little-endian u32 at offset `i` (`u32::from_le_bytes(l[i..i+4])`). -/
def le32? (l : List Nat) (i : Nat) : Option Nat :=
  (slice? l i (i + 4)).map le_bytes

/-- Read a little-endian u16 at offset `i` (`u16::from_le_bytes(l[i..i+2])`). -/
def le16? (l : List Nat) (i : Nat) : Option Nat :=
  (slice? l i (i + 2)).map le_bytes

/-! ## Protocol Engine: request-container parsing (mtp.rs, parse_mtp_command)

The container-type numbering of `enum MtpContainerType` in mtp.rs. -/

def MtpContainerType_Command : Nat := 0x0001
def MtpContainerType_Data : Nat := 0x0002
def MtpContainerType_Response : Nat := 0x0003

/-- Typed parse errors of `parse_mtp_command` (enum MtpError in mtp.rs). -/
inductive MtpError where
  | CannotParseHeader
  | WrongPacketType
deriving DecidableEq, Repr

/-- Parsed command view (struct PtpCommand in mtp.rs). -/
structure PtpCommand where
  op_code : Nat
  transaction_id : Nat
  payload : List Nat
deriving DecidableEq, Repr

/-- Declared little-endian length field of a container (first four bytes). -/
def declared_length (buf : List Nat) : Nat := le_bytes (buf.take 4)

/-- Container-type tag of a container (little-endian u16 at offset 4). -/
def container_type (buf : List Nat) : Nat := le_bytes ((buf.drop 4).take 2)

/-- Shallow embedding of `MtpClass::parse_mtp_command` (mtp.rs lines 153-172).
The outer Option models the Rust panics on out-of-range slicing: the length
field is read from `buf[0..4]`, checked against 12, then the packet type,
operation code, transaction id and the payload view `buf[12..length]` are
sliced out, and finally the packet type is compared with the expected phase. -/
def parse_mtp_command (buf : List Nat) (phase : Nat) :
    Option (Except MtpError PtpCommand) :=
  match slice? buf 0 4 with
  | none => none
  | some lenBytes =>
    let length := le_bytes lenBytes
    if length < 12 then
      some (Except.error MtpError.CannotParseHeader)
    else
      match slice? buf 4 6, slice? buf 6 8, slice? buf 8 12, slice? buf 12 length with
      | some ptB, some opB, some tidB, some payload =>
        if le_bytes ptB ≠ phase then
          some (Except.error MtpError.WrongPacketType)
        else
          some (Except.ok ⟨le_bytes opB, le_bytes tidB, payload⟩)
      | _, _, _, _ => none

/-! ## Dump Engine: SNES cartridge-type classification (dumper.rs) -/

/-- Numeric values of `enum SnesRomType` (dumper.rs lines 45-50). -/
def SnesRomType_LO : Nat := 0
def SnesRomType_HI : Nat := 1
def SnesRomType_SA : Nat := 3
def SnesRomType_EX : Nat := 4

/-- Cartridge-type classification of `check_cart_snes` (dumper.rs lines 789-794):
the match on `snes_header[0xFFD5 - header_start]`, where `header_start = 0xFFB0`,
so the byte inspected is `header[0x25]`. -/
def snes_rom_type (header : List Nat) : Nat :=
  let v := header.getD (0xFFD5 - 0xFFB0) 0
  if v = 0x35 then SnesRomType_EX
  else if v = 0x3A then SnesRomType_HI
  else if v >>> 5 ≠ 1 then SnesRomType_LO
  else v &&& 1

/-! ## Channel message vocabulary (enum Msg in dumper.rs)

A `Msg::Data` message carries a 32-byte buffer plus a meaningful length;
every consumer in the sources only reads `data[..length]`, so the model
carries exactly that meaningful byte list. -/

inductive MsgStartConsole where
  | Nes
  | Snes
deriving DecidableEq, Repr

inductive Msg where
  | start (console : MsgStartConsole)
  | setupData (rom_size : Nat)
  | configChanged (field value : List Nat)
  | data (bytes : List Nat)
  | msgEnd
deriving DecidableEq, Repr

/-- Size of the data buffer of one `Msg::Data` chunk (Msg::DATA_CHANNEL_SIZE). -/
def DATA_CHANNEL_SIZE : Nat := 32

/-! ## Dump Engine configuration (struct DumperConfig in dumper.rs) -/

structure DumperConfig where
  mapper : Nat
  prgsize : Nat
  chrsize : Nat
  prg : Nat
  chr : Nat
deriving DecidableEq, Repr

/-- Well-formedness: the fields fit in their Rust integer types
(mapper, prgsize, chrsize are u8; prg, chr are u16). -/
def DumperConfig.Wf (c : DumperConfig) : Prop :=
  c.mapper < 256 ∧ c.prgsize < 256 ∧ c.chrsize < 256 ∧ c.prg < 65536 ∧ c.chr < 65536

/-! ## NES dump (dumper.rs: dump_nes, read_prg, read_chr)

Bus reads return bytes from the cartridge hardware; they are modelled by an
uninterpreted oracle `rd : Nat → Nat` from the 16-bit bus address to the byte
value sampled there.  Mapper register writes (write_prg_byte, write_mmc1_byte)
change only cartridge-side state and emit no channel messages, so they do not
appear in the message-sequence model. -/

/-- Rust `copy_from_slice` into `l[i..i+src.length]`. -/
def writeSlice (l : List Nat) (i : Nat) (src : List Nat) : List Nat :=
  l.take i ++ src ++ l.drop (i + src.length)

/-- The header-byte writes of `dump_nes` (dumper.rs lines 546-550) applied to
the 32-byte scratch buffer: magic bytes, `(prg / 16) as u8`, `(chr / 8) as u8`,
`(mapper & 0xF) << 4`, nine zero bytes.  The `as u8` casts truncate mod 256. -/
def nes_header_buffer (c : DumperConfig) (buf : List Nat) : List Nat :=
  let b0 := writeSlice buf 0 [0x4E, 0x45, 0x53, 0x1A]
  let b1 := b0.set 4 ((c.prg / 16) % 256)
  let b2 := b1.set 5 ((c.chr / 8) % 256)
  let b3 := b2.set 6 ((c.mapper % 16) * 16)
  writeSlice b3 7 (List.replicate 9 0)

/-- The iterator `(a..b).step_by s` of Rust, as the list of visited values. -/
def step_by (a b s : Nat) : List Nat :=
  (List.range ((b - a + s - 1) / s)).map fun k => a + k * s

/-- One `dump_prg` chunk: 32 bytes read at `base + address + x` (u16 addition
wraps mod 2^16), sent as one Data message (dumper.rs lines 473-478). -/
def dump_prg_chunk (rd : Nat → Nat) (base addr : Nat) : Msg :=
  Msg.data ((List.range DATA_CHANNEL_SIZE).map fun x => rd ((base + addr + x) % 65536))

/-- One `dump_chr` chunk (dumper.rs lines 480-485). -/
def dump_chr_chunk (rd : Nat → Nat) (addr : Nat) : Msg :=
  Msg.data ((List.range DATA_CHANNEL_SIZE).map fun x => rd ((addr + x) % 65536))

/-- `dump_bank_prg(from, to, base)`: one Data chunk per 32-byte step. -/
def dump_bank_prg (rd : Nat → Nat) (a b base : Nat) : List Msg :=
  (step_by a b DATA_CHANNEL_SIZE).map (dump_prg_chunk rd base)

/-- `dump_bank_chr(from, to)`: one Data chunk per 32-byte step. -/
def dump_bank_chr (rd : Nat → Nat) (a b : Nat) : List Msg :=
  (step_by a b DATA_CHANNEL_SIZE).map (dump_chr_chunk rd)

/-- The PRG bank count of the mapper-4 path, `(1u16 << size) * 2` (dumper.rs
line 591), with u16 wrapping semantics: the shift amount is masked by the bit
width and the product is reduced mod 2^16. -/
def mapper4_prg_banks (size : Nat) : Nat := ((2 ^ (size % 16)) * 2) % 65536

/-- Shallow embedding of `read_prg` (dumper.rs lines 560-611): the sequence of
Data messages emitted, `none` modelling the fatal `panic!("Address overflow")`.
Mapper 0 computes `0x4000 * banks` in u16 (wrapping); mapper 1 computes its
bank count in u8; unknown mappers emit nothing. -/
def read_prg (rd : Nat → Nat) (mapper size : Nat) : Option (List Msg) :=
  match mapper with
  | 0 => some (dump_bank_prg rd 0 ((0x4000 * (2 ^ (size % 16))) % 65536) 0x8000)
  | 1 =>
    if size = 1 then some (dump_bank_prg rd 0 0x8000 0x8000)
    else
      some (List.flatten ((List.range ((2 ^ (size % 8)) % 256)).map
        fun _ => dump_bank_prg rd 0 0x4000 0x8000))
  | 4 =>
    if mapper4_prg_banks size > 256 then none
    else
      some (List.flatten ((List.range (mapper4_prg_banks size)).map
        fun _ => dump_bank_prg rd 0 0x2000 0x8000))
  | _ => some []

/-- Shallow embedding of `read_chr` (dumper.rs lines 613-634). -/
def read_chr (rd : Nat → Nat) (mapper size : Nat) : Option (List Msg) :=
  match mapper with
  | 0 => some (dump_bank_chr rd 0 0x2000)
  | 4 =>
    let banks := ((2 ^ (size % 16)) * 4) % 65536
    if banks > 256 then none
    else some (List.flatten ((List.range banks).map fun _ => dump_bank_chr rd 0x1000 0x1400))
  | _ => some []

/-- The SetupData size of a NES dump, `((prg as u32 + chr as u32) * 1024) + 16`
(dumper.rs lines 541-543), in u32 arithmetic. -/
def nes_rom_size (c : DumperConfig) : Nat :=
  ((c.prg + c.chr) * 1024 + 16) % 4294967296

/-- Shallow embedding of `dump_nes` (dumper.rs lines 535-558): the sequence of
messages sent on the out channel, paired with a flag that is true when the dump
aborted in the fatal mapper-4 branch (in which case no further messages follow
the ones already sent).  `buf` is the 32-byte scratch buffer's prior content. -/
def dump_nes (c : DumperConfig) (buf : List Nat) (prgRd chrRd : Nat → Nat) :
    List Msg × Bool :=
  let pre := [Msg.setupData (nes_rom_size c), Msg.data ((nes_header_buffer c buf).take 16)]
  match read_prg prgRd c.mapper c.prgsize with
  | none => (pre, true)
  | some prgMsgs =>
    if c.chrsize > 0 then
      match read_chr chrRd c.mapper c.chrsize with
      | none => (pre ++ prgMsgs, true)
      | some chrMsgs => (pre ++ prgMsgs ++ chrMsgs ++ [Msg.msgEnd], false)
    else (pre ++ prgMsgs ++ [Msg.msgEnd], false)

/-! ## Configuration-change messages (dumper.rs: dump, lines 509-529)

The field identifier is compared, as a &str produced by
`str::from_utf8(&field).unwrap()`, against five null-padded names.  A &str
equals a string literal exactly when their UTF-8 bytes are equal, so the
patterns are the byte lists below; the `unwrap` panics when the 16 identifier
bytes are not valid UTF-8. -/

def FIELD_MAPPER : List Nat := [0x6D, 0x61, 0x70, 0x70, 0x65, 0x72, 0, 0, 0, 0, 0, 0, 0, 0, 0, 0]
def FIELD_PRGSIZE : List Nat := [0x70, 0x72, 0x67, 0x73, 0x69, 0x7A, 0x65, 0, 0, 0, 0, 0, 0, 0, 0, 0]
def FIELD_CHRSIZE : List Nat := [0x63, 0x68, 0x72, 0x73, 0x69, 0x7A, 0x65, 0, 0, 0, 0, 0, 0, 0, 0, 0]
def FIELD_PRG : List Nat := [0x70, 0x72, 0x67, 0, 0, 0, 0, 0, 0, 0, 0, 0, 0, 0, 0, 0]
def FIELD_CHR : List Nat := [0x63, 0x68, 0x72, 0, 0, 0, 0, 0, 0, 0, 0, 0, 0, 0, 0, 0]

/-- Continuation-byte test of standard UTF-8 (0x80..=0xBF). -/
def utf8Cont (b : Nat) : Bool := decide (0x80 ≤ b ∧ b ≤ 0xBF)

/-- Validity of a byte sequence as UTF-8, per the standard encoding accepted
by Rust's `str::from_utf8`: ASCII and the 2-, 3- and 4-byte sequences with the usual
overlong, surrogate and range restrictions. -/
def utf8Valid : List Nat → Bool
  | [] => true
  | b0 :: t0 =>
    if b0 ≤ 0x7F then utf8Valid t0
    else if 0xC2 ≤ b0 ∧ b0 ≤ 0xDF then
      match t0 with
      | b1 :: t1 => utf8Cont b1 && utf8Valid t1
      | [] => false
    else if b0 = 0xE0 then
      match t0 with
      | b1 :: b2 :: t2 => decide (0xA0 ≤ b1 ∧ b1 ≤ 0xBF) && utf8Cont b2 && utf8Valid t2
      | _ => false
    else if (0xE1 ≤ b0 ∧ b0 ≤ 0xEC) ∨ b0 = 0xEE ∨ b0 = 0xEF then
      match t0 with
      | b1 :: b2 :: t2 => utf8Cont b1 && utf8Cont b2 && utf8Valid t2
      | _ => false
    else if b0 = 0xED then
      match t0 with
      | b1 :: b2 :: t2 => decide (0x80 ≤ b1 ∧ b1 ≤ 0x9F) && utf8Cont b2 && utf8Valid t2
      | _ => false
    else if b0 = 0xF0 then
      match t0 with
      | b1 :: b2 :: b3 :: t3 =>
        decide (0x90 ≤ b1 ∧ b1 ≤ 0xBF) && utf8Cont b2 && utf8Cont b3 && utf8Valid t3
      | _ => false
    else if 0xF1 ≤ b0 ∧ b0 ≤ 0xF3 then
      match t0 with
      | b1 :: b2 :: b3 :: t3 => utf8Cont b1 && utf8Cont b2 && utf8Cont b3 && utf8Valid t3
      | _ => false
    else if b0 = 0xF4 then
      match t0 with
      | b1 :: b2 :: b3 :: t3 =>
        decide (0x80 ≤ b1 ∧ b1 ≤ 0x8F) && utf8Cont b2 && utf8Cont b3 && utf8Valid t3
      | _ => false
    else false

/-- Shallow embedding of the `Msg::DumpSetupDataChanged` arm of `dump`
(dumper.rs lines 509-529): one configuration update step.  `none` models the
panic of `str::from_utf8(&field).unwrap()` on invalid UTF-8.  Multi-byte
values are decoded with `u16::from_ne_bytes`, little-endian on this target. -/
def dump_config_step (c : DumperConfig) (field value : List Nat) :
    Option DumperConfig :=
  if utf8Valid field then
    some (if field = FIELD_MAPPER then { c with mapper := value.getD 0 0 }
      else if field = FIELD_PRGSIZE then { c with prgsize := value.getD 0 0 }
      else if field = FIELD_CHRSIZE then { c with chrsize := value.getD 0 0 }
      else if field = FIELD_PRG then { c with prg := le_bytes (value.take 2) }
      else if field = FIELD_CHR then { c with chr := le_bytes (value.take 2) }
      else c)
  else none

/-! ## Noise-resilient read (dumper.rs: retry_read, lines 443-471)

`retry_read::<_, N>` samples N byte values and returns the best one by the
scan below.  The model takes the list of sampled values (the successive
results of the closure `f`); the sampling loop body itself only fills
`values`, so the list is the whole input. -/

/-- The inner count of `retry_read` at index `i`: `count` starts at 1 and adds
one for every j in i+1..N with `values[j] == values[i]`. -/
def countFrom (l : List Nat) (i : Nat) : Nat :=
  1 + (l.drop (i + 1)).count (l.getD i 0)

/-- One step of the outer selection loop of `retry_read`: the running
`(best_val, best_count)` pair is replaced when `count > best_count`. -/
def retryStep (l : List Nat) (acc : Nat × Nat) (i : Nat) : Nat × Nat :=
  if countFrom l i > acc.2 then (l.getD i 0, countFrom l i) else acc

/-- Shallow embedding of `retry_read` on the list of sampled values: the outer
loop starts from `(values[0], 1)` and scans i = 0..N. -/
def retry_read (l : List Nat) : Nat :=
  ((List.range l.length).foldl (retryStep l) (l.headD 0, 1)).1

/-- Claim-side notion: the winning (maximal) number of occurrences of any
sampled value. -/
def winningCount (l : List Nat) : Nat :=
  (l.map fun v => l.count v).foldr max 0

/-- Proof infrastructure for `retry_read`: the running maximum of the inner
counts over a list of indices, seeded with `c` (the evolution of
`best_count`). -/
def maxFrom (l : List Nat) (c : Nat) (is : List Nat) : Nat :=
  is.foldl (fun m i => max m (countFrom l i)) c

/-! ## Protocol Engine state and object handlers (mtp.rs) -/

/-- The mutable protocol-engine state touched by the object handlers: the
configuration file bytes, its live size, and the soft-delete flag
(fields of struct MtpClass). -/
structure MtpState where
  configuration_file : List Nat
  configuration_file_size : Nat
  configuration_file_deleted : Bool
deriving DecidableEq, Repr

/-- Shallow embedding of `generate_delete_object_response` (mtp.rs lines
622-628): reads the object id from the payload and sets the soft-delete flag
when it is the configuration-file handle 3 or the wildcard id. -/
def generate_delete_object (st : MtpState) (payload : List Nat) : Option MtpState :=
  match le32? payload 0 with
  | none => none
  | some id =>
    some (if id = 0x3 ∨ id = 0xFFFFFFFF then
      { st with configuration_file_deleted := true } else st)

/-- The scan loop of `object_format_codes_contains` (mtp.rs lines 345-352):
for each entry index `i` in 0..count it reads the two bytes at
`8 + (i * 2) as usize` — the u32 product, the usize sum and the `+ 1` of the
second byte's index all wrap mod 2^32 on this 32-bit target — returning early
on a match; `none` models the panic when an entry index is out of range. -/
def ofc_go (payload : List Nat) (needle : Nat) : Nat → Nat → Option Bool
  | _, 0 => some false
  | i, k + 1 =>
    let idx := (8 + (i * 2) % 4294967296) % 4294967296
    match payload[idx]?, payload[(idx + 1) % 4294967296]? with
    | some b0, some b1 =>
      if b0 + 256 * b1 = needle then some true else ofc_go payload needle (i + 1) k
    | _, _ => none

/-- Shallow embedding of `object_format_codes_contains` (mtp.rs lines 339-353):
an empty format-code list is a wildcard. -/
def object_format_codes_contains (payload : List Nat) (needle : Nat) : Option Bool :=
  match le32? payload 4 with
  | none => none
  | some cnt => if cnt = 0 then some true else ofc_go payload needle 0 cnt

/-- Shallow embedding of `object_handle_of_association_contains` (mtp.rs lines
355-366): the association filter, 0 being a wildcard.  The handle offset is
`8 + (object_format_code_count * 2) as usize` (mtp.rs line 358): the u32
multiplication and the usize addition wrap mod 2^32 on this 32-bit target,
and so does the `offset + 4` slice bound, so e.g. a count of 0x80000000 wraps
the offset back to 8 and the handle is read there without panicking. -/
def object_handle_of_association_contains (payload : List Nat) (needle : Nat) :
    Option Bool :=
  match le32? payload 4 with
  | none => none
  | some cnt =>
    let off := (8 + (cnt * 2) % 4294967296) % 4294967296
    match slice? payload off ((off + 4) % 4294967296) with
    | none => none
    | some hB =>
      let h := le_bytes hB
      some (h = 0 ∨ needle = h)

/-- Shallow embedding of `generate_object_handles_response` (mtp.rs lines
368-404) as the list of object handles written into the response, in emission
order.  The Rust `&&` chains short-circuit, so the filter helpers (and their
possible panics) are only evaluated when the storage id matches. -/
def generate_object_handles (deleted : Bool) (payload : List Nat) :
    Option (List Nat) :=
  match le32? payload 0 with
  | none => none
  | some sid =>
    match (if sid = 0xFFFFFFFF ∨ sid = 0x00010001 then
        match object_format_codes_contains payload 0x3001 with
        | none => none
        | some false => some false
        | some true => object_handle_of_association_contains payload 0xFFFFFFFF
      else some false) with
    | none => none
    | some c1 =>
      match (if sid = 0xFFFFFFFF ∨ sid = 0x00010001 then
          object_format_codes_contains payload 0x3000
        else some false) with
      | none => none
      | some c2 =>
        if c2 then
          match object_handle_of_association_contains payload 0x1 with
          | none => none
          | some a1 =>
            match object_handle_of_association_contains payload 0x4 with
            | none => none
            | some a4 =>
              some ((if c1 then [0x1, 0x4] else []) ++
                (if a1 then (if deleted then [0x2] else [0x2, 0x3]) else []) ++
                (if a4 then [0x5] else []))
        else some (if c1 then [0x1, 0x4] else [])

/-- The "Object Compressed Size" field written by
`generate_object_info_response` for each known handle (mtp.rs lines 406-527);
`none` for the unknown-handle branch, which produces no data block.  All other
fields of a response are constants, so the model records the size field, the
only one depending on the engine state: handle 3 reports
`configuration_file_size as u32`. -/
def object_info_size (st : MtpState) (handle : Nat) : Option Nat :=
  match handle with
  | 0x1 => some 0
  | 0x2 => some (0x8000 + 0x2000 + 16)
  | 0x3 => some (st.configuration_file_size % 4294967296)
  | 0x4 => some 0
  | 0x5 => some ((0x10000 - 0x8000) * 32)
  | _ => none

/-- Shallow embedding of `generate_object_info_response`: reads the handle from
the payload and produces the data block described by `object_info_size`. -/
def generate_object_info (st : MtpState) (payload : List Nat) :
    Option (Option Nat) :=
  match le32? payload 0 with
  | none => none
  | some h => some (object_info_size st h)

/-! ## Send object info (mtp.rs: generate_send_object_info_response) -/

def MtpCommandError_Ok : Nat := 0x2001
def MtpCommandError_OperationNotSupported : Nat := 0x2005
def MtpCommandError_InvalidObjectFormatCode : Nat := 0x200B
def MtpCommandError_StoreNotAvailable : Nat := 0x2013
def MtpCommandError_InvalidParentObject : Nat := 0x201A
def MtpCommandError_ObjectTooLarge : Nat := 0xA809

/-- UTF-16LE bytes of the expected filename "config.json". -/
def CONFIG_FILENAME_UTF16LE : List Nat :=
  [0x63, 0, 0x6F, 0, 0x6E, 0, 0x66, 0, 0x69, 0, 0x67, 0, 0x2E, 0,
   0x6A, 0, 0x73, 0, 0x6F, 0, 0x6E, 0]

/-- Observable outcome of one `generate_send_object_info_response` call. -/
inductive SoiOutcome where
  | rejectedEarly
  | panicked
  | noResponse
  | errorResponse (code : Nat)
  | okReserve (storage parent handle : Nat)
deriving DecidableEq, Repr

/-- The data-out phase of `generate_send_object_info_response` (everything
after the early storage/parent guard, mtp.rs lines 637-698): the two
follow-up `read_packet`s, the Data-container parse and the field
validations. -/
def soi_data_phase (cap : Nat) (dataOut : List Nat) (n : Nat) : SoiOutcome :=
  if n = 0 then .noResponse
  else
    match parse_mtp_command dataOut MtpContainerType_Data with
    | none => .panicked
    | some (Except.error _) => .noResponse
    | some (Except.ok cmd) =>
      if cmd.op_code = 0x100C then
        match le16? cmd.payload 4, le32? cmd.payload 8, le32? cmd.payload 38,
          le16? cmd.payload 42, le32? cmd.payload 44, cmd.payload[52]? with
        | some object_format, some object_compressed_size, some parent_object,
          some association_type, some association_description, some flByte =>
          if flByte = 0 then .panicked
          else
            match slice? cmd.payload 53 (53 + (flByte - 1) * 2) with
            | none => .panicked
            | some filename =>
              if object_format ≠ 0x3000 then
                .errorResponse MtpCommandError_InvalidObjectFormatCode
              else if object_compressed_size > cap then
                .errorResponse MtpCommandError_ObjectTooLarge
              else if parent_object ≠ 0x00000001 then
                .errorResponse MtpCommandError_InvalidParentObject
              else if association_type ≠ 0 then
                .errorResponse MtpCommandError_OperationNotSupported
              else if association_description ≠ 0 then
                .errorResponse MtpCommandError_OperationNotSupported
              else if flByte - 1 ≠ 11 ∨ filename ≠ CONFIG_FILENAME_UTF16LE then
                .errorResponse MtpCommandError_OperationNotSupported
              else .okReserve 0x00010001 0x00000001 0x00000003
        | _, _, _, _, _, _ => .panicked
      else .errorResponse MtpCommandError_OperationNotSupported

/-- Shallow embedding of `generate_send_object_info_response` (mtp.rs lines
630-713).  `payload` is the command payload; `dataOut` is the buffer content
after the two follow-up `read_packet` calls and `n` the byte count returned by
the second one (0 covering the `Err` and zero-length cases).  `rejectedEarly`
is the `return 0` before any data-out read; `okReserve` carries the (storage,
parent, reserved handle) triplet of the success response.  The filename length
byte `payload[52]` equal to 0 underflows `as usize - 1` and is modelled as a
panic, as is any out-of-range slice. -/
def generate_send_object_info (cap : Nat) (payload dataOut : List Nat) (n : Nat) :
    SoiOutcome :=
  match le32? payload 0, le32? payload 4 with
  | some storage_id, some parent_id =>
    if storage_id ≠ 0x00010001 ∧ parent_id ≠ 0x00000001 then .rejectedEarly
    else soi_data_phase cap dataOut n
  | _, _ => .panicked

/-! ## Packet framing (mtp.rs: write_response_buffer and
generate_rom_object_response)

The negotiated maximum packet size is 64 (main.rs, MAX_PACKET_SIZE); the
trailing zero-length-packet rule tests divisibility by the literal 64. -/

def MAX_PACKET_SIZE : Nat := 64

/-- The while loop of `write_response_buffer` (mtp.rs lines 745-759): the
transmitted byte stream split into packets of at most MAX_PACKET_SIZE. -/
def chunk64 (l : List Nat) : List (List Nat) :=
  match l with
  | [] => []
  | b :: rest => ((b :: rest).take MAX_PACKET_SIZE) :: chunk64 ((b :: rest).drop MAX_PACKET_SIZE)
termination_by l.length
decreasing_by simp [MAX_PACKET_SIZE]; omega

/-- Shallow embedding of `write_response_buffer` (mtp.rs lines 744-769) as the
list of packets transmitted for the byte stream `data` (which models
`buf[..len]`): after the loop, `offset = data.length`, and one zero-length
packet follows iff `offset > 0 && offset % 64 == 0`. -/
def write_response_buffer (data : List Nat) : List (List Nat) :=
  let ps := chunk64 data
  if 0 < data.length ∧ data.length % 64 = 0 then ps ++ [[]] else ps

/-- The receive loop of `generate_rom_object_response` (mtp.rs lines 533-586)
as the list of packets transmitted, driven by the channel messages.  `buf` is
the current accumulation buffer (`offset` bytes).  A DumpSetupData message
appends the 12-byte container header (u32 length `rom_size + 12`, u16 type 2,
u16 op 0x1009, u32 transaction id).  A Data message appends at most
`max_packet_size() - 1 - offset` bytes; when the buffer reaches exactly
`max_packet_size() - 1` bytes it is flushed and the remainder restarts the
buffer.  End flushes a nonempty remainder and appends a zero-length packet iff
`offset % 64 == 0`, then stops.  Packet writes are modelled as succeeding. -/
def rom_loop (tid : Nat) (buf : List Nat) : List Msg → List (List Nat)
  | [] => []
  | Msg.setupData rs :: rest =>
    rom_loop tid
      (buf ++ le_enc 4 ((rs + 12) % 4294967296) ++ le_enc 2 2 ++
        le_enc 2 0x1009 ++ le_enc 4 tid) rest
  | Msg.data bytes :: rest =>
    let bws := min bytes.length (MAX_PACKET_SIZE - 1 - buf.length)
    let buf2 := buf ++ bytes.take bws
    if buf2.length = MAX_PACKET_SIZE - 1 then buf2 :: rom_loop tid (bytes.drop bws) rest
    else rom_loop tid buf2 rest
  | Msg.msgEnd :: _ =>
    (if 0 < buf.length then [buf] else []) ++ (if buf.length % 64 = 0 then [[]] else [])
  | Msg.start _ :: rest => rom_loop tid buf rest
  | Msg.configChanged _ _ :: rest => rom_loop tid buf rest

/-- Packets of a whole live ROM-object transfer (the loop starts with an empty
accumulation buffer, `offset = 0`). -/
def rom_object_packets (tid : Nat) (msgs : List Msg) : List (List Nat) :=
  rom_loop tid [] msgs

/-! ## Supporting lemmas about the container parser -/

theorem parse_none_of_short (buf : List Nat) (phase : Nat) (h : buf.length < 4) :
    parse_mtp_command buf phase = none := by
  simp only [parse_mtp_command, slice?]
  rw [if_neg (by omega)]

theorem parse_header_error (buf : List Nat) (phase : Nat) (h4 : 4 ≤ buf.length)
    (h : declared_length buf < 12) :
    parse_mtp_command buf phase = some (Except.error MtpError.CannotParseHeader) := by
  simp only [parse_mtp_command, slice?]
  rw [if_pos (by omega)]
  simp only [List.drop_zero, Nat.sub_zero]
  rw [if_pos (by simpa [declared_length] using h)]

theorem parse_reduction (buf : List Nat) (phase : Nat) (h12 : 12 ≤ declared_length buf)
    (hlen : declared_length buf ≤ buf.length) :
    parse_mtp_command buf phase =
      some (if container_type buf ≠ phase then Except.error MtpError.WrongPacketType
        else Except.ok ⟨le_bytes ((buf.drop 6).take 2), le_bytes ((buf.drop 8).take 4),
          (buf.drop 12).take (declared_length buf - 12)⟩) := by
  have h12b : 12 ≤ buf.length := le_trans h12 hlen
  simp only [parse_mtp_command, slice?]
  rw [if_pos (by omega)]
  simp only [List.drop_zero, Nat.sub_zero]
  rw [if_neg (by simp only [declared_length] at h12 ⊢; omega)]
  rw [if_pos (by omega), if_pos (by omega), if_pos (by omega),
    if_pos (by constructor; · simp only [declared_length] at h12; omega
               · simpa [declared_length] using hlen)]
  norm_num [container_type, declared_length]
  exact (apply_ite some _ _ _).symm

/-! ## Supporting lemmas about the NES dump -/

theorem nes_header_buffer_take_16 (c : DumperConfig) (buf : List Nat)
    (h : buf.length = 32) :
    (nes_header_buffer c buf).take 16 =
      [0x4E, 0x45, 0x53, 0x1A, (c.prg / 16) % 256, (c.chr / 8) % 256,
       (c.mapper % 16) * 16] ++ List.replicate 9 0 := by
  rcases buf with _ | ⟨a0, buf⟩; · simp at h
  rcases buf with _ | ⟨a1, buf⟩; · simp at h
  rcases buf with _ | ⟨a2, buf⟩; · simp at h
  rcases buf with _ | ⟨a3, buf⟩; · simp at h
  rcases buf with _ | ⟨a4, buf⟩; · simp at h
  rcases buf with _ | ⟨a5, buf⟩; · simp at h
  rcases buf with _ | ⟨a6, buf⟩; · simp at h
  rcases buf with _ | ⟨a7, buf⟩; · simp at h
  rcases buf with _ | ⟨a8, buf⟩; · simp at h
  rcases buf with _ | ⟨a9, buf⟩; · simp at h
  rcases buf with _ | ⟨a10, buf⟩; · simp at h
  rcases buf with _ | ⟨a11, buf⟩; · simp at h
  rcases buf with _ | ⟨a12, buf⟩; · simp at h
  rcases buf with _ | ⟨a13, buf⟩; · simp at h
  rcases buf with _ | ⟨a14, buf⟩; · simp at h
  rcases buf with _ | ⟨a15, buf⟩; · simp at h
  rfl

theorem flatten_const_length (n : Nat) (L : List Msg) :
    (List.flatten (List.replicate n L)).length = n * L.length := by
  induction n with
  | zero => simp
  | succ k ih => rw [List.replicate_succ]; simp [ih]; ring

/-! ## Supporting lemmas about the Protocol Engine object handlers -/

theorem le32?_eq_some (payload : List Nat) (i v : Nat) (h : le32? payload i = some v) :
    v = le_bytes ((payload.drop i).take 4) ∧ i + 4 ≤ payload.length := by
  simp only [le32?, slice?] at h
  split at h
  · simp at h
    exact ⟨h.symm, by omega⟩
  · simp at h

theorem soi_data_phase_ne_rejected (cap : Nat) (dataOut : List Nat) (n : Nat) :
    soi_data_phase cap dataOut n ≠ SoiOutcome.rejectedEarly := by
  unfold soi_data_phase
  repeat' split
  all_goals simp

theorem soi_data_phase_ok (cap : Nat) (dataOut : List Nat) (n st pa h : Nat)
    (hok : soi_data_phase cap dataOut n = SoiOutcome.okReserve st pa h) :
    st = 0x00010001 ∧ pa = 0x00000001 ∧ h = 0x00000003 := by
  unfold soi_data_phase at hok
  repeat' split at hok
  all_goals simp_all

theorem handles_no_config_when_deleted (q l : List Nat)
    (h : generate_object_handles true q = some l) : (0x3 : Nat) ∉ l := by
  unfold generate_object_handles at h
  repeat' split at h
  all_goals
    first
      | exact Option.noConfusion h
      | (injection h with h1; subst h1; decide)
      | simp_all

/-- A format-code count of 0x80000000 wraps the u32 association-handle offset
`8 + count * 2` back to 8, so the code reads the handle in range and produces
a listing rather than panicking; the model agrees on this payload (wildcard
storage id, count 0x80000000, format codes 0x3001 and 0x3000 doubling as the
wrapped association handle 0x30003001, which matches no filter). -/
theorem object_handles_wrapped_count :
    object_handle_of_association_contains
      [0xFF, 0xFF, 0xFF, 0xFF, 0x00, 0x00, 0x00, 0x80, 0x01, 0x30, 0x00, 0x30]
      0xFFFFFFFF = some false ∧
    generate_object_handles true
      [0xFF, 0xFF, 0xFF, 0xFF, 0x00, 0x00, 0x00, 0x80, 0x01, 0x30, 0x00, 0x30] =
      some [] := by decide

/-! ## Supporting lemmas about packet framing -/

theorem mem_of_getLast?_eq (l : List (List Nat)) (a : List Nat)
    (h : l.getLast? = some a) : a ∈ l := by
  obtain ⟨hne, rfl⟩ := List.mem_getLast?_eq_getLast (Option.mem_def.mpr h)
  exact List.getLast_mem hne

theorem chunk64_mem_ne_nil (l : List Nat) : ∀ p ∈ chunk64 l, p ≠ [] := by
  induction l using chunk64.induct with
  | case1 => intro p hp; simp [chunk64] at hp
  | case2 b rest ih =>
    intro p hp
    rw [chunk64] at hp
    rcases List.mem_cons.mp hp with hhd | htl
    · subst hhd
      simp [MAX_PACKET_SIZE]
    · exact ih p htl

theorem rom_end_packets (tid : Nat) (buf : List Nat) (rest : List Msg) :
    rom_loop tid buf (Msg.msgEnd :: rest) =
      (if 0 < buf.length then [buf] else []) ++
        (if buf.length % 64 = 0 then [[]] else []) := by
  rfl

/-! ## Supporting lemmas about the majority-vote retry read -/

theorem find?_append_of_some (p : Nat → Bool) (l1 l2 : List Nat) (b : Nat)
    (h : l1.find? p = some b) : (l1 ++ l2).find? p = some b := by
  induction l1 with
  | nil => simp at h
  | cons a t ih =>
    by_cases hpa : p a
    · rw [List.find?_cons_of_pos _ hpa] at h
      rw [List.cons_append, List.find?_cons_of_pos _ hpa]
      exact h
    · rw [List.find?_cons_of_neg _ hpa] at h
      rw [List.cons_append, List.find?_cons_of_neg _ hpa]
      exact ih h

theorem find?_append_of_none (p : Nat → Bool) (l1 l2 : List Nat)
    (h : l1.find? p = none) : (l1 ++ l2).find? p = l2.find? p := by
  induction l1 with
  | nil => simp
  | cons a t ih =>
    have hpa : ¬ p a = true := by
      have := List.find?_eq_none.mp h a (List.mem_cons_self a t)
      simpa using this
    rw [List.find?_cons_of_neg _ hpa] at h
    rw [List.cons_append, List.find?_cons_of_neg _ hpa]
    exact ih h

theorem range_find?_eq (N i0 : Nat) (p : Nat → Bool) (hi : i0 < N)
    (hp : p i0 = true) (hpre : ∀ j, j < i0 → p j = false) :
    (List.range N).find? p = some i0 := by
  induction N with
  | zero => omega
  | succ n ih =>
    rw [List.range_succ]
    by_cases hlt : i0 < n
    · exact find?_append_of_some p _ _ i0 (ih hlt)
    · have hi0 : i0 = n := by omega
      subst hi0
      rw [find?_append_of_none p _ _ (List.find?_eq_none.mpr fun j hj => by
        rw [hpre j (List.mem_range.mp hj)]
        simp)]
      rw [List.find?_cons_of_pos _ hp]

theorem retryStep_snd (l : List Nat) (a c i : Nat) :
    (retryStep l (a, c) i).2 = max c (countFrom l i) := by
  unfold retryStep
  by_cases h : countFrom l i > c
  · rw [if_pos h]
    exact (Nat.max_eq_right (le_of_lt h)).symm
  · rw [if_neg h]
    exact (Nat.max_eq_left (le_of_not_lt h)).symm

theorem foldl_retryStep_snd (l : List Nat) (is : List Nat) :
    ∀ a c, (is.foldl (retryStep l) (a, c)).2 = maxFrom l c is := by
  induction is with
  | nil => intro a c; rfl
  | cons i is ih =>
    intro a c
    show (is.foldl (retryStep l) (retryStep l (a, c) i)).2 =
      maxFrom l (max c (countFrom l i)) is
    rcases hstep : retryStep l (a, c) i with ⟨a2, c2⟩
    have hc2 : c2 = max c (countFrom l i) := by
      have h := retryStep_snd l a c i
      rw [hstep] at h
      exact h
    rw [ih a2 c2, hc2]

theorem foldl_retryStep_const (l : List Nat) (is : List Nat) :
    ∀ a c, (∀ i ∈ is, countFrom l i ≤ c) → is.foldl (retryStep l) (a, c) = (a, c) := by
  induction is with
  | nil => intro a c _; rfl
  | cons i is ih =>
    intro a c hall
    have hstep : retryStep l (a, c) i = (a, c) := by
      unfold retryStep
      rw [if_neg (not_lt_of_le (hall i (List.mem_cons_self i is)))]
    show is.foldl (retryStep l) (retryStep l (a, c) i) = (a, c)
    rw [hstep]
    exact ih a c fun j hj => hall j (List.mem_cons_of_mem i hj)

theorem le_maxFrom (l : List Nat) (is : List Nat) : ∀ c, c ≤ maxFrom l c is := by
  induction is with
  | nil => intro c; exact le_refl c
  | cons i is ih =>
    intro c
    exact le_trans (Nat.le_max_left _ _) (ih (max c (countFrom l i)))

theorem countFrom_le_maxFrom (l : List Nat) (is : List Nat) :
    ∀ c i, i ∈ is → countFrom l i ≤ maxFrom l c is := by
  induction is with
  | nil => intro c i h; exact absurd h (List.not_mem_nil i)
  | cons j is ih =>
    intro c i h
    rcases List.mem_cons.mp h with rfl | hmem
    · exact le_trans (Nat.le_max_right _ _) (le_maxFrom l is _)
    · exact ih _ i hmem

theorem maxFrom_le (l : List Nat) (is : List Nat) :
    ∀ c k, c ≤ k → (∀ i ∈ is, countFrom l i ≤ k) → maxFrom l c is ≤ k := by
  induction is with
  | nil => intro c k hc _; exact hc
  | cons i is ih =>
    intro c k hc hall
    exact ih _ k (max_le hc (hall i (List.mem_cons_self i is)))
      fun j hj => hall j (List.mem_cons_of_mem i hj)

theorem foldl_retryStep_find (l : List Nat) (is : List Nat) :
    ∀ a c i0, c < maxFrom l c is →
      is.find? (fun i => countFrom l i == maxFrom l c is) = some i0 →
      (is.foldl (retryStep l) (a, c)).1 = l.getD i0 0 := by
  induction is with
  | nil =>
    intro a c i0 hlt _
    exact absurd hlt (lt_irrefl c)
  | cons i is ih =>
    intro a c i0 hlt hfind
    have hcount_le : countFrom l i ≤ maxFrom l c (i :: is) :=
      countFrom_le_maxFrom l (i :: is) c i (List.mem_cons_self i is)
    by_cases hhd : countFrom l i = maxFrom l c (i :: is)
    · have hfind2 : some i = some i0 := by
        rw [← hfind]
        exact (List.find?_cons_of_pos _ (by simpa using hhd)).symm
      injection hfind2 with hi
      subst hi
      have hclt : c < countFrom l i := by rw [hhd]; exact hlt
      have hstep : retryStep l (a, c) i = (l.getD i 0, countFrom l i) := by
        unfold retryStep
        rw [if_pos hclt]
      show (is.foldl (retryStep l) (retryStep l (a, c) i)).1 = l.getD i 0
      rw [hstep]
      have hmax2 : maxFrom l (max c (countFrom l i)) is = countFrom l i := hhd.symm
      have hall : ∀ j ∈ is, countFrom l j ≤ countFrom l i := by
        intro j hj
        have h := countFrom_le_maxFrom l is (max c (countFrom l i)) j hj
        rw [hmax2] at h
        exact h
      rw [foldl_retryStep_const l is _ _ hall]
    · have hfind2 : is.find? (fun j => countFrom l j == maxFrom l c (i :: is)) = some i0 := by
        rw [← hfind]
        exact (List.find?_cons_of_neg _ (by simpa using hhd)).symm
      rcases hstep : retryStep l (a, c) i with ⟨a2, c2⟩
      have hc2 : c2 = max c (countFrom l i) := by
        have h := retryStep_snd l a c i
        rw [hstep] at h
        exact h
      have hmax2 : maxFrom l c2 is = maxFrom l c (i :: is) := by
        rw [hc2]
        rfl
      have hlt2 : c2 < maxFrom l c2 is := by
        rw [hmax2, hc2]
        exact max_lt hlt (lt_of_le_of_ne hcount_le hhd)
      show (is.foldl (retryStep l) (retryStep l (a, c) i)).1 = l.getD i0 0
      rw [hstep]
      apply ih a2 c2 i0 hlt2
      rw [hmax2]
      exact hfind2

theorem count_split_at (l : List Nat) (i : Nat) (hi : i < l.length) :
    l.count (l.getD i 0) =
      (l.take i).count (l.getD i 0) + 1 + (l.drop (i + 1)).count (l.getD i 0) := by
  have hdrop : l.drop i = l.getD i 0 :: l.drop (i + 1) := by
    rw [List.getD_eq_getElem l 0 hi]
    exact List.drop_eq_getElem_cons hi
  have h1 : l.count (l.getD i 0) =
      (l.take i).count (l.getD i 0) + (l.drop i).count (l.getD i 0) := by
    rw [← List.count_append, List.take_append_drop]
  rw [h1, hdrop, List.count_cons_self]
  ring

theorem countFrom_le_count (l : List Nat) (i : Nat) (hi : i < l.length) :
    countFrom l i ≤ l.count (l.getD i 0) := by
  have h := count_split_at l i hi
  have hcf : countFrom l i = 1 + (l.drop (i + 1)).count (l.getD i 0) := rfl
  omega

theorem countFrom_first_occ (l : List Nat) (j : Nat) (hj : j < l.length)
    (hnot : l.getD j 0 ∉ l.take j) :
    countFrom l j = l.count (l.getD j 0) := by
  have h := count_split_at l j hj
  have h0 : (l.take j).count (l.getD j 0) = 0 := List.count_eq_zero.mpr hnot
  have hcf : countFrom l j = 1 + (l.drop (j + 1)).count (l.getD j 0) := rfl
  omega

theorem le_foldr_max (m : List Nat) (a : Nat) (h : a ∈ m) : a ≤ m.foldr max 0 := by
  induction m with
  | nil => cases h
  | cons x m ih =>
    rcases List.mem_cons.mp h with rfl | hm
    · exact Nat.le_max_left _ _
    · exact le_trans (ih hm) (Nat.le_max_right _ _)

theorem foldr_max_attained (m : List Nat) :
    m.foldr max 0 = 0 ∨ m.foldr max 0 ∈ m := by
  induction m with
  | nil => exact Or.inl rfl
  | cons x m ih =>
    rcases ih with h0 | hmem
    · right
      show max x (m.foldr max 0) ∈ x :: m
      rw [h0, Nat.max_eq_left (Nat.zero_le x)]
      exact List.mem_cons_self x m
    · rcases le_total x (m.foldr max 0) with hle | hle
      · right
        show max x (m.foldr max 0) ∈ x :: m
        rw [Nat.max_eq_right hle]
        exact List.mem_cons_of_mem x hmem
      · right
        show max x (m.foldr max 0) ∈ x :: m
        rw [Nat.max_eq_left hle]
        exact List.mem_cons_self x m

theorem count_le_winningCount (l : List Nat) (v : Nat) (h : v ∈ l) :
    l.count v ≤ winningCount l :=
  le_foldr_max _ _ (List.mem_map_of_mem _ h)

theorem winningCount_attained (l : List Nat) (hne : l ≠ []) :
    ∃ v ∈ l, l.count v = winningCount l := by
  rcases foldr_max_attained (l.map fun v => l.count v) with h0 | hmem
  · obtain ⟨x, t, rfl⟩ := List.exists_cons_of_ne_nil hne
    have h1 : 0 < (x :: t).count x := List.count_pos_iff.mpr (List.mem_cons_self x t)
    have h2 := count_le_winningCount (x :: t) x (List.mem_cons_self x t)
    have h3 : winningCount (x :: t) = 0 := h0
    omega
  · obtain ⟨v, hv, hcv⟩ := List.mem_map.mp hmem
    exact ⟨v, hv, hcv⟩

theorem exists_first_occ (l : List Nat) (w : Nat) (hw : w ∈ l) :
    ∃ j, j < l.length ∧ l.getD j 0 = w ∧ w ∉ l.take j ∧
      (∀ k, k < l.length → l.getD k 0 = w → j ≤ k) := by
  have hex : ∃ j, j < l.length ∧ l.getD j 0 = w := by
    obtain ⟨n, hn, hln⟩ := List.mem_iff_getElem.mp hw
    exact ⟨n, hn, by rw [List.getD_eq_getElem l 0 hn]; exact hln⟩
  refine ⟨Nat.find hex, (Nat.find_spec hex).1, (Nat.find_spec hex).2, ?_, ?_⟩
  · intro hmem
    obtain ⟨k, hk, hlk⟩ := List.mem_iff_getElem.mp hmem
    have hk2 : k < Nat.find hex ∧ k < l.length := by
      simp only [List.length_take, lt_min_iff] at hk
      exact hk
    apply Nat.find_min hex hk2.1
    refine ⟨hk2.2, ?_⟩
    rw [List.getD_eq_getElem l 0 hk2.2]
    rw [List.getElem_take] at hlk
    exact hlk
  · intro k hk hgk
    by_contra hlt
    push_neg at hlt
    exact Nat.find_min hex hlt ⟨hk, hgk⟩

/-! ## Claim theorems -/

/-- C3: the SNES cartridge-type classification, as a function of the header
byte v at offset 0xFFD5 minus the header base, returns ExHiROM for 0x35,
HiROM for 0x3A, LoROM when the top three bits of v are not 0b001, and
otherwise v & 1; in particular 0x35 ↦ ExHiROM, 0x3A ↦ HiROM, 0x05 ↦ LoROM,
0x21 ↦ 1, 0x20 ↦ 0. -/
theorem snes_classification_spec (header : List Nat) (v : Nat)
    (hlen : header.length = 80) (hv : header.getD 37 0 = v) :
    snes_rom_type header =
      (if v = 0x35 then SnesRomType_EX
       else if v = 0x3A then SnesRomType_HI
       else if v / 2 ^ 5 ≠ 0b001 then SnesRomType_LO
       else v % 2) ∧
    (v = 0x35 → snes_rom_type header = SnesRomType_EX) ∧
    (v = 0x3A → snes_rom_type header = SnesRomType_HI) ∧
    (v = 0x05 → snes_rom_type header = SnesRomType_LO) ∧
    (v = 0x21 → snes_rom_type header = 1) ∧
    (v = 0x20 → snes_rom_type header = 0) := by
  have hmain : snes_rom_type header =
      (if v = 0x35 then SnesRomType_EX
       else if v = 0x3A then SnesRomType_HI
       else if v / 2 ^ 5 ≠ 0b001 then SnesRomType_LO
       else v % 2) := by
    simp only [snes_rom_type, hv, Nat.shiftRight_eq_div_pow, Nat.and_one_is_mod]
  refine ⟨hmain, ?_, ?_, ?_, ?_, ?_⟩ <;> intro h <;> subst h <;> rw [hmain] <;> decide

/-- Witness for C3 at a concrete 80-byte header whose type byte is 0x35. -/
theorem snes_classification_spec_witness :
    snes_rom_type (List.replicate 37 0 ++ 0x35 :: List.replicate 42 0) = SnesRomType_EX :=
  (snes_classification_spec (List.replicate 37 0 ++ 0x35 :: List.replicate 42 0) 0x35
    (by decide) (by decide)).2.1 rfl

/-- C9 counterexample: an all-0xFF field identifier is not valid UTF-8, so the
`str::from_utf8(...).unwrap()` in `dump` panics instead of ignoring the
message, refuting the claim for that identifier content. -/
theorem config_unknown_field_counterexample :
    dump_config_step ⟨1, 3, 0, 128, 0⟩ (List.replicate 16 0xFF) (List.replicate 16 0) = none ∧
    utf8Valid (List.replicate 16 0xFF) = false := by decide

/-- C9 (amended): a ConfigChanged message whose field identifier is valid
UTF-8 but matches none of the five recognized null-padded names is ignored:
the configuration is returned unchanged and no panic occurs.  (Identifiers
that are not valid UTF-8 instead panic in `unwrap`.) -/
theorem config_unknown_field_ignored (c : DumperConfig) (field value : List Nat)
    (hutf : utf8Valid field = true)
    (h1 : field ≠ FIELD_MAPPER) (h2 : field ≠ FIELD_PRGSIZE)
    (h3 : field ≠ FIELD_CHRSIZE) (h4 : field ≠ FIELD_PRG) (h5 : field ≠ FIELD_CHR) :
    dump_config_step c field value = some c := by
  simp [dump_config_step, hutf, h1, h2, h3, h4, h5]

/-- Witness for C9 (amended) at the all-zero identifier. -/
theorem config_unknown_field_ignored_witness :
    dump_config_step ⟨1, 3, 0, 128, 0⟩ (List.replicate 16 0) (List.replicate 16 0) =
      some ⟨1, 3, 0, 128, 0⟩ :=
  config_unknown_field_ignored ⟨1, 3, 0, 128, 0⟩ (List.replicate 16 0) (List.replicate 16 0)
    (by decide) (by decide) (by decide) (by decide) (by decide) (by decide)

/-- C10 counterexample: the 4-byte buffer [0,0,0,0] is shorter than 12 bytes,
yet `parse_mtp_command` does not panic on it: the declared length 0 fails the
`length < 12` check first and a typed `CannotParseHeader` error is returned. -/
theorem parse_totality_counterexample :
    parse_mtp_command [0, 0, 0, 0] MtpContainerType_Command =
      some (Except.error MtpError.CannotParseHeader) ∧
    List.length [0, 0, 0, 0] < 12 := ⟨rfl, by decide⟩

/-- C10 (amended): `parse_mtp_command` never checks the declared length field
against the actual buffer size; it panics exactly when the buffer is shorter
than the 4 length bytes, or the declared length is at least 12 (so the header
and payload slices are taken) but exceeds the buffer length.  Totality
therefore needs the buffer to hold at least 4 bytes and, when the declared
length is at least 12, at least the declared length. -/
theorem parse_totality (buf : List Nat) (phase : Nat) :
    parse_mtp_command buf phase = none ↔
      buf.length < 4 ∨
        (12 ≤ declared_length buf ∧ buf.length < declared_length buf) := by
  by_cases h4 : 4 ≤ buf.length
  · by_cases h12 : 12 ≤ declared_length buf
    · by_cases hlen : declared_length buf ≤ buf.length
      · -- all slices succeed: no panic
        have h12b : 12 ≤ buf.length := le_trans h12 hlen
        simp only [parse_mtp_command, slice?]
        rw [if_pos (by omega)]
        simp only [List.drop_zero, Nat.sub_zero]
        rw [if_neg (by simp only [declared_length] at h12 ⊢; omega)]
        rw [if_pos (by omega), if_pos (by omega), if_pos (by omega),
          if_pos (by constructor; · simp only [declared_length] at h12; omega
                     · simpa [declared_length] using hlen)]
        exact iff_of_false (by split <;> (split <;> simp)) (by omega)
      · -- the payload slice buf[12..length] panics
        simp only [parse_mtp_command, slice?]
        rw [if_pos (by omega)]
        simp only [List.drop_zero, Nat.sub_zero]
        rw [if_neg (by simp only [declared_length] at h12 ⊢; omega)]
        by_cases h6 : 6 ≤ buf.length
        · by_cases h8 : 8 ≤ buf.length
          · by_cases h12b : 12 ≤ buf.length
            · rw [if_pos (by omega), if_pos (by omega), if_pos (by omega),
                if_neg (by simp only [declared_length] at hlen ⊢; omega)]
              exact iff_of_true rfl (by omega)
            · rw [if_pos (by omega), if_pos (by omega), if_neg (by omega)]
              exact iff_of_true rfl (by omega)
          · rw [if_pos (by omega), if_neg (by omega)]
            exact iff_of_true rfl (by omega)
        · rw [if_neg (by omega)]
          exact iff_of_true rfl (by omega)
    · rw [parse_header_error buf phase h4 (by omega)]
      exact iff_of_false (by simp) (by simp only [declared_length] at h12 ⊢; omega)
  · rw [parse_none_of_short buf phase (by omega)]
    exact iff_of_true rfl (by omega)

/-- C4: under the totality precondition identified for the parser (the buffer
holds the 4 length bytes and, when the declared length is at least 12, at
least the declared length), parsing a request container succeeds exactly when
the declared little-endian length is at least 12 and the container-type tag
equals the expected phase (command = 1, data = 2, response = 3); the result
carries the operation code, transaction id and payload bytes 12..length, and
violations give the typed errors CannotParseHeader and WrongPacketType. -/
theorem parse_contract (buf : List Nat) (phase : Nat)
    (h4 : 4 ≤ buf.length)
    (htot : 12 ≤ declared_length buf → declared_length buf ≤ buf.length) :
    ∃ r, parse_mtp_command buf phase = some r ∧
      ((∃ cmd, r = Except.ok cmd) ↔
        (12 ≤ declared_length buf ∧ container_type buf = phase)) ∧
      (declared_length buf < 12 → r = Except.error MtpError.CannotParseHeader) ∧
      (12 ≤ declared_length buf → container_type buf ≠ phase →
        r = Except.error MtpError.WrongPacketType) ∧
      (∀ cmd, r = Except.ok cmd →
        cmd.op_code = le_bytes ((buf.drop 6).take 2) ∧
        cmd.transaction_id = le_bytes ((buf.drop 8).take 4) ∧
        cmd.payload = (buf.drop 12).take (declared_length buf - 12)) ∧
      MtpContainerType_Command = 1 ∧ MtpContainerType_Data = 2 ∧
        MtpContainerType_Response = 3 := by
  by_cases h12 : 12 ≤ declared_length buf
  · rw [parse_reduction buf phase h12 (htot h12)]
    by_cases hph : container_type buf = phase
    · refine ⟨_, rfl, ?_, ?_, ?_, ?_, rfl, rfl, rfl⟩
      · rw [if_neg (by simpa using hph)]
        exact iff_of_true ⟨_, rfl⟩ ⟨h12, hph⟩
      · intro h; omega
      · intro _ h; exact absurd hph h
      · rw [if_neg (by simpa using hph)]
        intro cmd hc
        cases hc
        exact ⟨rfl, rfl, rfl⟩
    · refine ⟨_, rfl, ?_, ?_, ?_, ?_, rfl, rfl, rfl⟩
      · rw [if_pos hph]
        refine iff_of_false ?_ (by tauto)
        rintro ⟨cmd, hcmd⟩
        exact Except.noConfusion hcmd
      · intro h; omega
      · intro _ _; rw [if_pos hph]
      · rw [if_pos hph]
        intro cmd hc
        exact Except.noConfusion hc
  · rw [parse_header_error buf phase h4 (by omega)]
    refine ⟨_, rfl, ?_, fun _ => rfl, ?_, ?_, rfl, rfl, rfl⟩
    · refine iff_of_false ?_ (by tauto)
      rintro ⟨cmd, hcmd⟩
      exact Except.noConfusion hcmd
    · intro h; omega
    · intro cmd hc
      exact Except.noConfusion hc

/-- Witness for C4 at a concrete well-formed 16-byte command container. -/
theorem parse_contract_witness :
    ∃ r, parse_mtp_command [16, 0, 0, 0, 1, 0, 9, 16, 1, 0, 0, 0, 0xAA, 0xBB, 0xCC, 0xDD] 1 =
        some r ∧
      ((∃ cmd, r = Except.ok cmd) ↔
        (12 ≤ declared_length [16, 0, 0, 0, 1, 0, 9, 16, 1, 0, 0, 0, 0xAA, 0xBB, 0xCC, 0xDD] ∧
          container_type [16, 0, 0, 0, 1, 0, 9, 16, 1, 0, 0, 0, 0xAA, 0xBB, 0xCC, 0xDD] = 1)) ∧
      (declared_length [16, 0, 0, 0, 1, 0, 9, 16, 1, 0, 0, 0, 0xAA, 0xBB, 0xCC, 0xDD] < 12 →
        r = Except.error MtpError.CannotParseHeader) ∧
      (12 ≤ declared_length [16, 0, 0, 0, 1, 0, 9, 16, 1, 0, 0, 0, 0xAA, 0xBB, 0xCC, 0xDD] →
        container_type [16, 0, 0, 0, 1, 0, 9, 16, 1, 0, 0, 0, 0xAA, 0xBB, 0xCC, 0xDD] ≠ 1 →
        r = Except.error MtpError.WrongPacketType) ∧
      (∀ cmd, r = Except.ok cmd →
        cmd.op_code =
          le_bytes (([16, 0, 0, 0, 1, 0, 9, 16, 1, 0, 0, 0, 0xAA, 0xBB, 0xCC, 0xDD].drop 6).take 2) ∧
        cmd.transaction_id =
          le_bytes (([16, 0, 0, 0, 1, 0, 9, 16, 1, 0, 0, 0, 0xAA, 0xBB, 0xCC, 0xDD].drop 8).take 4) ∧
        cmd.payload =
          ([16, 0, 0, 0, 1, 0, 9, 16, 1, 0, 0, 0, 0xAA, 0xBB, 0xCC, 0xDD].drop 12).take
            (declared_length [16, 0, 0, 0, 1, 0, 9, 16, 1, 0, 0, 0, 0xAA, 0xBB, 0xCC, 0xDD] - 12)) ∧
      MtpContainerType_Command = 1 ∧ MtpContainerType_Data = 2 ∧
        MtpContainerType_Response = 3 :=
  parse_contract [16, 0, 0, 0, 1, 0, 9, 16, 1, 0, 0, 0, 0xAA, 0xBB, 0xCC, 0xDD] 1
    (by decide) (by decide)

/-- C2 counterexample: for the configuration (mapper 5, prg 4096 KB, chr 0)
the `(prg / 16) as u8` cast truncates: the emitted header byte 4 is 0, not
prg / 16 = 256, so the claimed header byte list is not produced. -/
theorem nes_header_counterexample :
    (dump_nes ⟨5, 0, 0, 4096, 0⟩ (List.replicate 32 9) (fun _ => 0) (fun _ => 0)).1.take 2 ≠
      [Msg.setupData (((4096 + 0) * 1024) + 16),
        Msg.data ([0x4E, 0x45, 0x53, 0x1A, 4096 / 16, 0 / 8, (5 % 16) * 16] ++
          List.replicate 9 0)] ∧
    (nes_header_buffer ⟨5, 0, 0, 4096, 0⟩ (List.replicate 32 9)).take 16 ≠
      [0x4E, 0x45, 0x53, 0x1A, 4096 / 16, 0 / 8, (5 % 16) * 16] ++ List.replicate 9 0 := by
  decide

/-- C2 (amended): for every well-formed configuration, a NES dump first emits
one SetupData message with rom_size = ((prg + chr) * 1024) + 16 and then one
16-byte header chunk [0x4E, 0x45, 0x53, 0x1A, (prg/16) mod 256, (chr/8) mod
256, (mapper & 0xF) << 4, nine zero bytes] — the two size bytes are truncated
to 8 bits by the `as u8` casts; in particular for mapper = 1, prg = 128,
chr = 0 the header bytes are exactly as the claim lists them. -/
theorem nes_dump_header (c : DumperConfig) (buf : List Nat) (prgRd chrRd : Nat → Nat)
    (hwf : c.Wf) (hbuf : buf.length = 32) :
    (dump_nes c buf prgRd chrRd).1.take 2 =
      [Msg.setupData (((c.prg + c.chr) * 1024) + 16),
        Msg.data ([0x4E, 0x45, 0x53, 0x1A, (c.prg / 16) % 256, (c.chr / 8) % 256,
          (c.mapper % 16) * 16] ++ List.replicate 9 0)] ∧
    (nes_header_buffer ⟨1, 3, 0, 128, 0⟩ buf).take 16 =
      [0x4E, 0x45, 0x53, 0x1A, 0x08, 0x00, 0x10, 0, 0, 0, 0, 0, 0, 0, 0, 0] := by
  obtain ⟨hm, hps, hcs, hp, hc⟩ := hwf
  have hsize : nes_rom_size c = ((c.prg + c.chr) * 1024) + 16 := by
    simp only [nes_rom_size]
    rw [Nat.mod_eq_of_lt (by omega)]
  have hhdr := nes_header_buffer_take_16 c buf hbuf
  constructor
  · unfold dump_nes
    split
    · simp [hsize, hhdr]
    · split
      · split
        · simp [hsize, hhdr]
        · simp [hsize, hhdr]
      · simp [hsize, hhdr]
  · rw [nes_header_buffer_take_16 ⟨1, 3, 0, 128, 0⟩ buf hbuf]
    decide

/-- Witness for C2 (amended) at the default configuration and a zeroed
scratch buffer. -/
theorem nes_dump_header_witness :
    (dump_nes ⟨1, 3, 0, 128, 0⟩ (List.replicate 32 0) (fun _ => 0) (fun _ => 0)).1.take 2 =
      [Msg.setupData (((128 + 0) * 1024) + 16),
        Msg.data ([0x4E, 0x45, 0x53, 0x1A, (128 / 16) % 256, (0 / 8) % 256,
          (1 % 16) * 16] ++ List.replicate 9 0)] ∧
    (nes_header_buffer ⟨1, 3, 0, 128, 0⟩ (List.replicate 32 0)).take 16 =
      [0x4E, 0x45, 0x53, 0x1A, 0x08, 0x00, 0x10, 0, 0, 0, 0, 0, 0, 0, 0, 0] :=
  nes_dump_header ⟨1, 3, 0, 128, 0⟩ (List.replicate 32 0) (fun _ => 0) (fun _ => 0)
    (by constructor <;> norm_num) (by decide)

/-- C7 counterexample: at prgsize = 15 the u16 bank-count computation
`(1u16 << 15) * 2` wraps to 0, so although 2 * 2^15 = 65536 exceeds 256, the
mapper-4 PRG read does not hit the fatal guard: it returns normally (with an
empty bank loop) instead of panicking. -/
theorem mapper4_overflow_counterexample :
    read_prg (fun _ => 0) 4 15 = some [] ∧ 2 * 2 ^ 15 > 256 := by decide

/-- C7 (amended): the mapper-4 PRG dump is fatal exactly when the u16-computed
bank count `(1u16 << prgsize) * 2` (shift amount masked mod 16, product
reduced mod 2^16) exceeds 256, which happens exactly when prgsize mod 16 lies
in 8..14; under the precondition 2 * 2^prgsize ≤ 256 the fatal branch is
unreachable and the per-bank read loop emits one 32-byte Data chunk per
32-byte window of each of the 2 * 2^prgsize banks. -/
theorem mapper4_guard (rd : Nat → Nat) (size : Nat) (hsz : size < 256) :
    (read_prg rd 4 size = none ↔ mapper4_prg_banks size > 256) ∧
    (mapper4_prg_banks size > 256 ↔ (8 ≤ size % 16 ∧ size % 16 ≤ 14)) ∧
    (2 * 2 ^ size ≤ 256 →
      ∃ msgs, read_prg rd 4 size = some msgs ∧
        msgs.length = 2 * 2 ^ size * 256 ∧
        ∀ m ∈ msgs, ∃ bytes, m = Msg.data bytes ∧ bytes.length = 32) := by
  refine ⟨?_, ?_, ?_⟩
  · by_cases hb : mapper4_prg_banks size > 256 <;> simp [read_prg, hb]
  · by_cases h15 : size % 16 = 15
    · rw [mapper4_prg_banks, h15]
      norm_num
    · have hlt : size % 16 < 16 := Nat.mod_lt _ (by norm_num)
      have hle : size % 16 ≤ 14 := by omega
      have hpow : 2 ^ (size % 16) * 2 < 65536 := by
        have : (2 : Nat) ^ (size % 16) ≤ 2 ^ 14 := Nat.pow_le_pow_right (by norm_num) hle
        omega
      rw [mapper4_prg_banks, Nat.mod_eq_of_lt hpow, ← pow_succ]
      constructor
      · intro hgt
        have : (2 : Nat) ^ 8 < 2 ^ (size % 16 + 1) := by norm_num at hgt ⊢; omega
        have := (Nat.pow_lt_pow_iff_right (by norm_num : (1 : Nat) < 2)).mp this
        omega
      · rintro ⟨h8, _⟩
        have : (2 : Nat) ^ 9 ≤ 2 ^ (size % 16 + 1) :=
          Nat.pow_le_pow_right (by norm_num) (by omega)
        omega
  · intro hsmall
    have hs7 : size ≤ 7 := by
      by_contra hgt
      have : (2 : Nat) ^ 8 ≤ 2 ^ size := Nat.pow_le_pow_right (by norm_num) (by omega)
      omega
    have hmod : size % 16 = size := Nat.mod_eq_of_lt (by omega)
    have hbanks : mapper4_prg_banks size = 2 * 2 ^ size := by
      rw [mapper4_prg_banks, hmod, Nat.mod_eq_of_lt (by omega)]
      ring
    have hnot : ¬ mapper4_prg_banks size > 256 := by omega
    have hread : read_prg rd 4 size =
        some ((List.replicate (mapper4_prg_banks size)
          (dump_bank_prg rd 0 0x2000 0x8000)).flatten) := by
      simp [read_prg, hnot]
    refine ⟨_, hread, ?_, ?_⟩
    · rw [flatten_const_length, hbanks]
      have : (dump_bank_prg rd 0 0x2000 0x8000).length = 256 := by
        simp [dump_bank_prg, step_by, DATA_CHANNEL_SIZE]
      rw [this]
    · intro m hm
      simp only [List.mem_flatten] at hm
      obtain ⟨L, hL, hmL⟩ := hm
      rw [List.eq_of_mem_replicate hL] at hmL
      simp only [dump_bank_prg, List.mem_map] at hmL
      obtain ⟨addr, _, rfl⟩ := hmL
      exact ⟨_, rfl, by simp [dump_prg_chunk, DATA_CHANNEL_SIZE]⟩

/-- Witness for C7 (amended) at prgsize = 3. -/
theorem mapper4_guard_witness :
    (read_prg (fun _ => 0) 4 3 = none ↔ mapper4_prg_banks 3 > 256) ∧
    (mapper4_prg_banks 3 > 256 ↔ (8 ≤ 3 % 16 ∧ 3 % 16 ≤ 14)) ∧
    (2 * 2 ^ 3 ≤ 256 →
      ∃ msgs, read_prg (fun _ => 0) 4 3 = some msgs ∧
        msgs.length = 2 * 2 ^ 3 * 256 ∧
        ∀ m ∈ msgs, ∃ bytes, m = Msg.data bytes ∧ bytes.length = 32) :=
  mapper4_guard (fun _ => 0) 3 (by norm_num)

/-- C6 counterexample: a Send-object-info request whose storage id is 0 (not
the fixed 0x00010001) but whose parent handle is the expected 0x00000001 is
not rejected early: the guard `storage_id != 0x00010001 && parent_id !=
0x00000001` only rejects when both mismatch, so the handler proceeds to the
data-out read, refuting the claim that either mismatch alone is rejected
without a read. -/
theorem send_object_info_guard_counterexample :
    generate_send_object_info 512 [0, 0, 0, 0, 1, 0, 0, 0] [] 0 ≠ SoiOutcome.rejectedEarly ∧
    le32? [0, 0, 0, 0, 1, 0, 0, 0] 0 = some 0 ∧
    le32? [0, 0, 0, 0, 1, 0, 0, 0] 4 = some 1 ∧
    (0 : Nat) ≠ 0x00010001 := by decide

/-- C6 (amended): a Send-object-info request is rejected early — without any
data-out read or handle reservation — exactly when BOTH the destination
storage id differs from 0x00010001 AND the parent handle differs from
0x00000001; when at least one of them matches, the handler proceeds to read
the follow-up data-out container, and a handle can only be reserved then, the
reserved triplet being (0x00010001, 0x00000001, 0x00000003). -/
theorem send_object_info_guard (cap : Nat) (payload dataOut : List Nat) (n s p : Nat)
    (hs : le32? payload 0 = some s) (hp : le32? payload 4 = some p) :
    (generate_send_object_info cap payload dataOut n = SoiOutcome.rejectedEarly ↔
      (s ≠ 0x00010001 ∧ p ≠ 0x00000001)) ∧
    (∀ st pa hd,
      generate_send_object_info cap payload dataOut n = SoiOutcome.okReserve st pa hd →
      (s = 0x00010001 ∨ p = 0x00000001) ∧
        st = 0x00010001 ∧ pa = 0x00000001 ∧ hd = 0x00000003) := by
  by_cases hc : s ≠ 0x00010001 ∧ p ≠ 0x00000001
  · constructor
    · simp only [generate_send_object_info, hs, hp, if_pos hc]
      simpa using hc
    · intro st pa hd habs
      exact absurd habs (by simp [generate_send_object_info, hs, hp, if_pos hc])
  · constructor
    · refine iff_of_false ?_ hc
      intro habs
      simp only [generate_send_object_info, hs, hp, if_neg hc] at habs
      exact soi_data_phase_ne_rejected cap dataOut n habs
    · intro st pa hd hok
      simp only [generate_send_object_info, hs, hp, if_neg hc] at hok
      obtain ⟨h1, h2, h3⟩ := soi_data_phase_ok cap dataOut n st pa hd hok
      exact ⟨by tauto, h1, h2, h3⟩

/-- Witness for C6 (amended) at a request with matching storage and parent. -/
theorem send_object_info_guard_witness :
    (generate_send_object_info 512 [1, 0, 1, 0, 1, 0, 0, 0] [] 0 = SoiOutcome.rejectedEarly ↔
      ((0x00010001 : Nat) ≠ 0x00010001 ∧ (1 : Nat) ≠ 0x00000001)) ∧
    (∀ st pa hd,
      generate_send_object_info 512 [1, 0, 1, 0, 1, 0, 0, 0] [] 0 = SoiOutcome.okReserve st pa hd →
      ((0x00010001 : Nat) = 0x00010001 ∨ (1 : Nat) = 0x00000001) ∧
        st = 0x00010001 ∧ pa = 0x00000001 ∧ hd = 0x00000003) :=
  send_object_info_guard 512 [1, 0, 1, 0, 1, 0, 0, 0] [] 0 0x00010001 1
    (by decide) (by decide)

/-- C8: deleting the configuration-file object (handle 3 or the wildcard id)
only sets the soft-delete flag — the configuration bytes and live size are
untouched; afterwards handle 3 does not appear in any Get-object-handles
listing, while Get-object-info on handle 3 still succeeds and reports the
current live configuration size. -/
theorem soft_delete_effects (st : MtpState) (payload q q2 : List Nat)
    (st' : MtpState) (l : List Nat)
    (hdel : generate_delete_object st payload = some st')
    (hid : le_bytes (payload.take 4) = 0x3 ∨ le_bytes (payload.take 4) = 0xFFFFFFFF)
    (hlist : generate_object_handles st'.configuration_file_deleted q = some l)
    (hq2 : le32? q2 0 = some 0x3) :
    st'.configuration_file = st.configuration_file ∧
    st'.configuration_file_size = st.configuration_file_size ∧
    st'.configuration_file_deleted = true ∧
    (0x3 : Nat) ∉ l ∧
    generate_object_info st' q2 = some (some (st.configuration_file_size % 4294967296)) := by
  rcases hq0 : le32? payload 0 with _ | id
  · unfold generate_delete_object at hdel
    rw [hq0] at hdel
    simp at hdel
  · unfold generate_delete_object at hdel
    rw [hq0] at hdel
    have hidv := (le32?_eq_some payload 0 id hq0).1
    rw [List.drop_zero] at hidv
    have hcond : id = 0x3 ∨ id = 0xFFFFFFFF := by rw [hidv]; exact hid
    have hdel2 : some (if id = 0x3 ∨ id = 0xFFFFFFFF then
        { st with configuration_file_deleted := true } else st) = some st' := hdel
    rw [if_pos hcond] at hdel2
    injection hdel2 with hst
    subst hst
    refine ⟨rfl, rfl, rfl, ?_, ?_⟩
    · exact handles_no_config_when_deleted q l hlist
    · unfold generate_object_info
      rw [hq2]
      rfl

/-- Witness for C8 at a concrete state, a delete of handle 3, a wildcard
handle listing and an object-info lookup of handle 3. -/
theorem soft_delete_effects_witness :
    (⟨[1, 2, 3], 3, true⟩ : MtpState).configuration_file =
      (⟨[1, 2, 3], 3, false⟩ : MtpState).configuration_file ∧
    (⟨[1, 2, 3], 3, true⟩ : MtpState).configuration_file_size =
      (⟨[1, 2, 3], 3, false⟩ : MtpState).configuration_file_size ∧
    (⟨[1, 2, 3], 3, true⟩ : MtpState).configuration_file_deleted = true ∧
    (0x3 : Nat) ∉ [0x1, 0x4, 0x2, 0x5] ∧
    generate_object_info ⟨[1, 2, 3], 3, true⟩ [3, 0, 0, 0] =
      some (some ((⟨[1, 2, 3], 3, false⟩ : MtpState).configuration_file_size %
        4294967296)) :=
  soft_delete_effects ⟨[1, 2, 3], 3, false⟩
    [3, 0, 0, 0] [255, 255, 255, 255, 0, 0, 0, 0, 0, 0, 0, 0] [3, 0, 0, 0]
    ⟨[1, 2, 3], 3, true⟩ [0x1, 0x4, 0x2, 0x5]
    (by decide) (by decide) (by decide) (by decide)

/-- C5 counterexample: a live ROM-object transfer of 63 transmitted bytes
(12-byte container header, a 32-byte chunk and a 19-byte chunk) fills one
63-byte packet exactly (the flush threshold is max_packet_size - 1 = 63), so
at End the residual offset is 0 and a zero-length packet is appended even
though the total length 63 is not a multiple of 64, refuting the claim for
the live ROM path. -/
theorem rom_zlp_counterexample :
    ((rom_object_packets 0 [Msg.setupData 51, Msg.data (List.replicate 32 0),
      Msg.data (List.replicate 19 0), Msg.msgEnd]).map List.length) = [63, 0] ∧
    (rom_object_packets 0 [Msg.setupData 51, Msg.data (List.replicate 32 0),
      Msg.data (List.replicate 19 0), Msg.msgEnd]).getLast? = some [] ∧
    ¬ (63 % 64 = 0) := by decide

/-- C5 (amended): for a static response buffer the transfer ends with one
trailing zero-length packet exactly when the transmitted length is a nonzero
multiple of 64, as claimed.  The live ROM-object transfer, however, cuts full
packets at max_packet_size - 1 = 63 bytes and tests the residual accumulation
offset at End, so there the zero-length packet is appended exactly when the
residual buffer is empty (the total is a multiple of 63), not when the
cumulative length is a multiple of 64. -/
theorem packet_framing (data buf : List Nat) (tid : Nat) (rest : List Msg)
    (hbuf : buf.length ≤ 62) :
    ((write_response_buffer data).getLast? = some [] ↔
      (0 < data.length ∧ data.length % 64 = 0)) ∧
    ((rom_loop tid buf (Msg.msgEnd :: rest)).getLast? = some [] ↔ buf.length = 0) := by
  constructor
  · constructor
    · intro h
      by_contra hcond
      have hwrb : write_response_buffer data = chunk64 data := by
        unfold write_response_buffer
        rw [if_neg hcond]
      rw [hwrb] at h
      exact chunk64_mem_ne_nil data [] (mem_of_getLast?_eq _ _ h) rfl
    · intro hcond
      unfold write_response_buffer
      rw [if_pos hcond]
      exact List.getLast?_concat _
  · rw [rom_end_packets]
    rcases Nat.eq_zero_or_pos buf.length with hz | hpos
    · rw [hz]
      simp
    · have hmod : buf.length % 64 = buf.length := Nat.mod_eq_of_lt (by omega)
      rw [if_pos hpos, hmod, if_neg (by omega)]
      simp only [List.append_nil, List.getLast?_singleton, Option.some_inj]
      constructor
      · intro hb
        rw [hb] at hpos
        simp at hpos
      · intro hlen0
        omega

/-- Witness for C5 (amended) at a 64-byte static transfer and an empty
residual ROM buffer. -/
theorem packet_framing_witness :
    ((write_response_buffer (List.replicate 64 7)).getLast? = some [] ↔
      (0 < (List.replicate 64 7 : List Nat).length ∧
        (List.replicate 64 7 : List Nat).length % 64 = 0)) ∧
    ((rom_loop 0 [] [Msg.msgEnd]).getLast? = some [] ↔
      ([] : List Nat).length = 0) :=
  packet_framing (List.replicate 64 7) [] 0 [] (by decide)

/-- C1: for every nonempty sequence of sampled bytes, `retry_read` returns
the value occurring most often among the samples, ties broken toward the
earliest sample whose value attains the winning count (the first sample, in
order, whose occurrence count equals the maximal one); with a single sample
it returns that sample unchanged. -/
theorem retry_read_majority :
    (∀ values : List Nat, values ≠ [] →
      values.find? (fun v => values.count v == winningCount values) =
        some (retry_read values)) ∧
    (∀ b : Nat, retry_read [b] = b) := by
  constructor
  · intro l hne
    obtain ⟨v, hvmem, hvcount⟩ := winningCount_attained l hne
    obtain ⟨jv, hjvlt, hjvget, hjvnot, _⟩ := exists_first_occ l v hvmem
    have hcfjv : countFrom l jv = l.count v := by
      have h := countFrom_first_occ l jv hjvlt (by rw [hjvget]; exact hjvnot)
      rw [hjvget] at h
      exact h
    have hcfjvM : countFrom l jv = winningCount l := by rw [hcfjv, hvcount]
    have hgetD_mem : ∀ i, i < l.length → l.getD i 0 ∈ l := by
      intro i hi
      rw [List.getD_eq_getElem l 0 hi]
      exact l.getElem_mem hi
    have hub : ∀ i, i < l.length → countFrom l i ≤ winningCount l := by
      intro i hi
      exact le_trans (countFrom_le_count l i hi)
        (count_le_winningCount l _ (hgetD_mem i hi))
    have hM1 : 1 ≤ winningCount l := by
      have h1 : 0 < l.count v := List.count_pos_iff.mpr hvmem
      omega
    have hMfold : maxFrom l 1 (List.range l.length) = winningCount l := by
      apply le_antisymm
      · exact maxFrom_le l _ 1 _ hM1 fun i hi => hub i (List.mem_range.mp hi)
      · have h := countFrom_le_maxFrom l (List.range l.length) 1 jv
          (List.mem_range.mpr hjvlt)
        omega
    rcases eq_or_lt_of_le hM1 with hMeq | hMgt
    · -- winning count 1: every sample is distinct, the first sample wins
      obtain ⟨x, t, rfl⟩ := List.exists_cons_of_ne_nil hne
      have hcx : (x :: t).count x = winningCount (x :: t) := by
        have h1 : 0 < (x :: t).count x := List.count_pos_iff.mpr (List.mem_cons_self x t)
        have h2 := count_le_winningCount (x :: t) x (List.mem_cons_self x t)
        omega
      rw [List.find?_cons_of_pos _ (by simpa using hcx)]
      have hretry : retry_read (x :: t) = x := by
        rw [retry_read]
        rw [foldl_retryStep_const (x :: t) (List.range (x :: t).length) _ 1
          (fun i hi => by have h := hub i (List.mem_range.mp hi); omega)]
        rfl
      rw [hretry]
    · -- winning count at least 2
      have hexP : ∃ i, countFrom l i = winningCount l := ⟨jv, hcfjvM⟩
      have hP0 : countFrom l (Nat.find hexP) = winningCount l := Nat.find_spec hexP
      have hmin : ∀ j, j < Nat.find hexP → countFrom l j ≠ winningCount l :=
        fun j hj => Nat.find_min hexP hj
      have hi0len : Nat.find hexP < l.length := by
        by_contra hge
        push_neg at hge
        have hdrop : l.drop (Nat.find hexP + 1) = [] :=
          List.drop_eq_nil_of_le (by omega)
        have h1 : countFrom l (Nat.find hexP) =
            1 + ([] : List Nat).count (l.getD (Nat.find hexP) 0) := by
          rw [countFrom, hdrop]
        simp at h1
        omega
      have hrange : (List.range l.length).find?
          (fun i => countFrom l i == maxFrom l 1 (List.range l.length)) =
            some (Nat.find hexP) := by
        apply range_find?_eq l.length (Nat.find hexP) _ hi0len
        · rw [hMfold]
          simpa using hP0
        · intro j hj
          rw [hMfold]
          simpa using hmin j hj
      have hretry : retry_read l = l.getD (Nat.find hexP) 0 := by
        rw [retry_read]
        exact foldl_retryStep_find l (List.range l.length) _ 1 (Nat.find hexP)
          (by rw [hMfold]; omega) hrange
      have hcx : l.count (l.getD (Nat.find hexP) 0) = winningCount l := by
        have hle := countFrom_le_count l (Nat.find hexP) hi0len
        have hub2 := count_le_winningCount l _ (hgetD_mem (Nat.find hexP) hi0len)
        omega
      have hnone : (l.take (Nat.find hexP)).find?
          (fun v => l.count v == winningCount l) = none := by
        apply List.find?_eq_none.mpr
        intro w hw
        simp only [beq_iff_eq]
        intro hcw
        obtain ⟨jw, hjwlt, hjwget, hjwnot, hjwmin⟩ :=
          exists_first_occ l w (List.mem_of_mem_take hw)
        have hcfw : countFrom l jw = winningCount l := by
          have h := countFrom_first_occ l jw hjwlt (by rw [hjwget]; exact hjwnot)
          rw [hjwget] at h
          rw [h, hcw]
        obtain ⟨k, hk, hlk⟩ := List.mem_iff_getElem.mp hw
        have hk2 : k < Nat.find hexP ∧ k < l.length := by
          simp only [List.length_take, lt_min_iff] at hk
          exact hk
        have hjwk : jw ≤ k := by
          apply hjwmin k hk2.2
          rw [List.getD_eq_getElem l 0 hk2.2]
          rw [List.getElem_take] at hlk
          exact hlk
        exact hmin jw (by omega) hcfw
      have hsplit : l = l.take (Nat.find hexP) ++
          l.getD (Nat.find hexP) 0 :: l.drop (Nat.find hexP + 1) := by
        have hdrop : l.drop (Nat.find hexP) =
            l.getD (Nat.find hexP) 0 :: l.drop (Nat.find hexP + 1) := by
          rw [List.getD_eq_getElem l 0 hi0len]
          exact List.drop_eq_getElem_cons hi0len
        rw [← hdrop, List.take_append_drop]
      rw [hretry]
      have hcongr := congrArg
        (List.find? fun v => l.count v == winningCount l) hsplit
      rw [hcongr, find?_append_of_none _ _ _ hnone]
      exact List.find?_cons_of_pos _ (by simpa using hcx)
  · intro b
    rfl

/-- Witness for C1 at the sample list [3, 7, 7]: the winning value is 7. -/
theorem retry_read_majority_witness :
    ([3, 7, 7] : List Nat).find?
        (fun v => ([3, 7, 7] : List Nat).count v == winningCount [3, 7, 7]) =
      some (retry_read [3, 7, 7]) ∧
    retry_read [5] = 5 :=
  ⟨retry_read_majority.1 [3, 7, 7] (by decide), retry_read_majority.2 5⟩

end WchDumper
